import Mathlib

/-!
Verification of the CTroll3D frame-streaming core of `citra_qt/bootmanager.cpp`.

Images are modelled as byte maps `Nat → Nat` (index into the interleaved RGB
raster, value of that byte).  The differencer (`squareDiff`, `copySquare`,
`putSquare`, `imageDiff`), the per-frame pump (`processFrameData`) and the
transport helper (`socketSend`) are shallow embeddings of the corresponding C++
functions; the JPEG encoder is an uninterpreted parameter `jpeg` since its
output bytes are opaque to this core.
-/

/-- Absolute difference of two bytes, `abs(a - b)` on values promoted to int. -/
def bdiff (a b : Nat) : Nat := max a b - min a b

/-- Byte address of offset `t < 192` inside the 8x8 RGB block that starts at
byte `base` of an image whose rows are `rs` bytes wide: row `t / 24` of the
block, byte `t % 24` within the 24 bytes of that block row. -/
def addr (base rs t : Nat) : Nat := base + t / 24 * rs + t % 24

/-- Block-local byte offset of the first channel of pixel `p < 64`
(row `p / 8`, column `p % 8`) of an 8x8 block. -/
def pixOff (p : Nat) : Nat := p / 8 * 24 + p % 8 * 3

/-- Sum of the three per-channel absolute differences of pixel `p` of the
blocks of `p1` and `p2` that start at `base` (row stride `rs`), matching the
three `diff += abs(ptr1[c] - ptr2[c])` statements of `squareDiff`. -/
def pixDiff (p1 p2 : Nat → Nat) (base rs p : Nat) : Nat :=
  bdiff (p1 (addr base rs (pixOff p))) (p2 (addr base rs (pixOff p))) +
  bdiff (p1 (addr base rs (pixOff p + 1))) (p2 (addr base rs (pixOff p + 1))) +
  bdiff (p1 (addr base rs (pixOff p + 2))) (p2 (addr base rs (pixOff p + 2)))

/-- The loop of `squareDiff`: scan the pixels in `l`, accumulating the running
sum `diff`; after each pixel, if the sum exceeds `MIN_SQDIFF = 8 * 8 * 3 = 192`
return `1` immediately (early exit), otherwise continue; return `0` at the end. -/
def squareDiffGo (p1 p2 : Nat → Nat) (base rs : Nat) : List Nat → Nat → Nat
  | [], _ => 0
  | p :: rest, diff =>
    let d := diff + pixDiff p1 p2 base rs p
    if 192 < d then 1 else squareDiffGo p1 p2 base rs rest d

/-- `squareDiff(ptr1, ptr2, rowStride)`: 1 if the 8x8 blocks at `base` differ
beyond the threshold, 0 otherwise. -/
def squareDiff (p1 p2 : Nat → Nat) (base rs : Nat) : Nat :=
  squareDiffGo p1 p2 base rs (List.range 64) 0

/-- Total sum of per-channel absolute pixel differences over one 8x8 block. -/
def blockSum (p1 p2 : Nat → Nat) (base rs : Nat) : Nat :=
  ((List.range 64).map (pixDiff p1 p2 base rs)).sum

/-- Does byte address `x` lie inside the 8x8 block at `base` (row stride `rs`)? -/
def inSquare (base rs x : Nat) : Bool :=
  (List.range 192).any (fun t => x == addr base rs t)

/-- `copySquare(dst, src, rowStride)`: overwrite the 8x8 block of `dst` at
`base` with the corresponding block of `src`; all other bytes keep their value. -/
def copySquare (dst src : Nat → Nat) (base rs : Nat) : Nat → Nat :=
  fun x => if inSquare base rs x then src x else dst x

/-- `putSquare(dst, src, rowStride)` with `dst = diffBuf + dstBase`: pack the
8x8 block of `src` at `base` into 192 consecutive bytes of `dst` starting at
`dstBase` (the destination pointer is not re-strided). -/
def putSquare (dst : Nat → Nat) (dstBase : Nat) (src : Nat → Nat) (base rs : Nat) : Nat → Nat :=
  fun x =>
    if dstBase ≤ x ∧ x < dstBase + 192 then src (addr base rs (x - dstBase))
    else dst x

/-- Byte address of the start of block number `b` (row-major over the block
grid) of an image of pixel width `w`. -/
def blockBase (w b : Nat) : Nat := b / (w / 8) * (8 * (w * 3)) + b % (w / 8) * 24

/-- State threaded through `imageDiff`: the previous-frame buffer `lastImage`,
the dirty bitmap `diffMap` (one flag per block), the packed dirty-pixel buffer
`diffBuf`, and the running dirty count `numSqDiff`. -/
structure DiffState where
  last : Nat → Nat
  dmap : Nat → Bool
  dbuf : Nat → Nat
  numSq : Nat

/-- One iteration of the block loop of `imageDiff` for block `b`. -/
def diffStep (cur : Nat → Nat) (w : Nat) (st : DiffState) (b : Nat) : DiffState :=
  let rs := w * 3
  let base := blockBase w b
  if squareDiff st.last cur base rs = 1 then
    { last := copySquare st.last cur base rs
      dmap := fun b2 => if b2 = b then true else st.dmap b2
      dbuf := putSquare st.dbuf (8 * 8 * 3 * st.numSq) cur base rs
      numSq := st.numSq + 1 }
  else
    { st with dmap := fun b2 => if b2 = b then false else st.dmap b2 }

/-- `imageDiff(currentImage, width, height)`: scan all blocks in row-major
order, rewriting every bit of the dirty bitmap, copying dirty blocks into the
previous-frame buffer and packing them into the diff buffer. -/
def imageDiff (st : DiffState) (cur : Nat → Nat) (w h : Nat) : DiffState :=
  (List.range (h / 8 * (w / 8))).foldl (diffStep cur w) st

/-- Is block `b` dirty when comparing the stored frame `last` with `cur`? -/
def blockDirty (last cur : Nat → Nat) (w b : Nat) : Bool :=
  squareDiff last cur (blockBase w b) (w * 3) == 1

/-- Dirty blocks of a `w` by `h` frame comparison, in row-major block order. -/
def dirtyBlocks (last cur : Nat → Nat) (w h : Nat) : List Nat :=
  (List.range (h / 8 * (w / 8))).filter (blockDirty last cur w)

-- ### Basic characterization of the block differencer

theorem squareDiffGo_characterization (p1 p2 : Nat → Nat) (base rs : Nat) :
    ∀ (l : List Nat) (d : Nat), d ≤ 192 →
      squareDiffGo p1 p2 base rs l d =
        if 192 < d + ((l.map (pixDiff p1 p2 base rs)).sum) then 1 else 0 := by
  intro l
  induction l with
  | nil => intro d hd; simp [squareDiffGo, Nat.not_lt.mpr hd]
  | cons p rest ih =>
    intro d hd
    simp only [squareDiffGo, List.map_cons, List.sum_cons]
    by_cases h : 192 < d + pixDiff p1 p2 base rs p
    · have : 192 < d + (pixDiff p1 p2 base rs p + (rest.map (pixDiff p1 p2 base rs)).sum) := by
        omega
      simp [h, this]
    · have h' : d + pixDiff p1 p2 base rs p ≤ 192 := Nat.not_lt.mp h
      rw [if_neg h, ih _ h']
      have : d + pixDiff p1 p2 base rs p + (rest.map (pixDiff p1 p2 base rs)).sum =
          d + (pixDiff p1 p2 base rs p + (rest.map (pixDiff p1 p2 base rs)).sum) := by omega
      rw [this]

theorem squareDiff_eq_blockSum_test (p1 p2 : Nat → Nat) (base rs : Nat) :
    squareDiff p1 p2 base rs = if 192 < blockSum p1 p2 base rs then 1 else 0 := by
  unfold squareDiff blockSum
  rw [squareDiffGo_characterization p1 p2 base rs (List.range 64) 0 (by omega)]
  simp

/-- Claim C3: for every pair of corresponding 8x8 blocks of two compatible
frames, the differencer sums absolute per-channel pixel differences and marks
the block dirty (result 1) exactly when the sum exceeds the fixed threshold
8 * 8 * 3 = 192, and reports the block clean (result 0) exactly when the total
sum never exceeds 192. -/
theorem C3_squareDiff_threshold (p1 p2 : Nat → Nat) (base rs : Nat) :
    squareDiff p1 p2 base rs = if 192 < blockSum p1 p2 base rs then 1 else 0 :=
  squareDiff_eq_blockSum_test p1 p2 base rs

-- ### Frame pump: persistent state, mode selection, wire protocol

/-- Frame mode `FM_NONE`. -/
def FM_NONE : Nat := 0

/-- Frame mode `FM_FULL`. -/
def FM_FULL : Nat := 1

/-- Frame mode `FM_DIFF`. -/
def FM_DIFF : Nat := 2

/-- Frame mode `FM_CHECKER`. -/
def FM_CHECKER : Nat := 3

/-- Frame mode `FM_CHECKER_COMPL`. -/
def FM_CHECKER_COMPL : Nat := 4

/-- Little-endian bytes of a 16-bit value as written by
`socketSend(sock, (const char *)&v, 2)`. -/
def le16 (n : Nat) : List Nat := [n % 256, n / 256 % 256]

/-- `socketSend(sock, data, sz)`: when the socket is connected, the bytes are
written (blocking) and 1 is returned; otherwise nothing at all is written and
0 is returned. The first component is the byte sequence actually written. -/
def socketSend (connected : Bool) (data : List Nat) : List Nat × Nat :=
  if connected then (data, 1) else ([], 0)

/-- The first `n` bytes of the raster `f`, as handed to the JPEG encoder. -/
def bytesOf (f : Nat → Nat) (n : Nat) : List Nat := (List.range n).map f

/-- The 150 bytes of the global `diffMap` bitmap: block `b` occupies bit
`b % 8` (mask `1 << (b % 8)`) of byte `b / 8`, following the `mapPos` /
`mapMask` cursor of `imageDiff`. -/
def diffMapBytes (m : Nat → Bool) : List Nat :=
  (List.range 150).map (fun p =>
    (List.range 8).foldl (fun acc k => acc + if m (8 * p + k) then 2 ^ k else 0) 0)

/-- C truthiness negation `!skip` for an int used as a flag. -/
def bNot (n : Nat) : Nat := if n = 0 then 1 else 0

/-- The three bytes of pixel (row `j`, column `i`) of a `w`-wide RGB raster. -/
def pix3 (frame : Nat → Nat) (w j i : Nat) : List Nat :=
  [frame (3 * (j * w + i)), frame (3 * (j * w + i) + 1), frame (3 * (j * w + i) + 2)]

/-- Inner loop body of the checkerboard subsampling: copy the pixel when
`skip` is 0, then toggle `skip`. The accumulator is (output bytes, skip). -/
def rowStep (frame : Nat → Nat) (w j : Nat) (a : List Nat × Nat) (i : Nat) :
    List Nat × Nat :=
  (if a.2 = 0 then a.1 ++ pix3 frame w j i else a.1, bNot a.2)

/-- Outer loop body: run one row, then toggle `skip` once more at end of row. -/
def colStep (frame : Nat → Nat) (w : Nat) (a : List Nat × Nat) (j : Nat) :
    List Nat × Nat :=
  let r := (List.range w).foldl (rowStep frame w j) a
  (r.1, bNot r.2)

/-- The half-width interlaced buffer built by the `FM_CHECKER` /
`FM_CHECKER_COMPL` branch of `processFrameData`, with starting phase `ck`. -/
def checkerBuild (frame : Nat → Nat) (w h ck : Nat) : List Nat :=
  ((List.range h).foldl (colStep frame w) ([], ck)).1

/-- Persistent (static) state of `GRenderWindow::processFrameData` between
calls: the previous-frame buffer, the dirty bitmap and packed diff buffer, the
forced-refresh counter, the checkerboard phase, the last selected mode, and the
socket connection state with its retry wait counter. -/
structure PumpState where
  lastImage : Option (Nat → Nat)
  diffMap : Nat → Bool
  diffBuf : Nat → Nat
  forceFrameCount : Nat
  checker : Nat
  lastFrameMode : Nat
  connected : Bool
  waitConnection : Nat

/-- Result of the mode-selection phase (lines choosing `frameMode` and running
the differencer): the selected mode, the dirty count the differencer returned
(0 when it did not run), and the new values of the mutated global buffers. -/
structure SelResult where
  mode : Nat
  numSq : Nat
  lastImage : Option (Nat → Nat)
  dmap : Nat → Bool
  dbuf : Nat → Nat

/-- Mode selection of `processFrameData`: first the preliminary choice
(forced keyframe when `forceFrameCount > 100`, else the complementary checker
phase when the last mode was `FM_CHECKER`), then the first-call establishment
of the previous-frame buffer, else the differencer when neither `FM_FULL` nor
`FM_CHECKER_COMPL` was preselected. -/
def selectMode (s : PumpState) (f : Nat → Nat) (w h : Nat) : SelResult :=
  let mode0 : Nat :=
    if 100 < s.forceFrameCount then FM_FULL
    else if s.lastFrameMode = FM_CHECKER then FM_CHECKER_COMPL
    else FM_NONE
  match s.lastImage with
  | none =>
      { mode := FM_FULL, numSq := 0, lastImage := some f,
        dmap := s.diffMap, dbuf := s.diffBuf }
  | some last =>
      if mode0 ≠ FM_FULL ∧ mode0 ≠ FM_CHECKER_COMPL then
        let d := imageDiff ⟨last, s.diffMap, s.diffBuf, 0⟩ f w h
        let m :=
          if 240 / 8 * (320 / 8) / 3 < d.numSq then FM_CHECKER
          else if 0 < d.numSq then FM_DIFF
          else FM_NONE
        { mode := m, numSq := d.numSq, lastImage := some d.last,
          dmap := d.dmap, dbuf := d.dbuf }
      else
        { mode := mode0, numSq := 0, lastImage := some last,
          dmap := s.diffMap, dbuf := s.diffBuf }

/-- Result of one `processFrameData` call: the new persistent state, the bytes
written to the socket, the selected frame mode (`none` for a poll-only call
without frame data), whether a connection attempt was initiated, and the
acknowledgment byte returned to the caller. -/
structure PumpResult where
  state : PumpState
  sent : List Nat
  mode : Option Nat
  attempted : Bool
  ack : Nat

/-- `GRenderWindow::processFrameData`. `jpeg` is the uninterpreted
`jpegCompress` encoder (input bytes, width, height to compressed bytes),
`connectOk` tells whether a connection attempt made during this call succeeds,
and `confirmByte` is the acknowledgment byte the peer made available. -/
def processFrameData (jpeg : List Nat → Nat → Nat → List Nat) (s : PumpState)
    (frameData : Option (Nat → Nat)) (w h : Nat) (connectOk : Bool)
    (confirmByte : Nat) : PumpResult :=
  let maint : Bool × Nat × Bool :=
    if s.connected then (true, s.waitConnection, false)
    else if s.waitConnection = 0 then (connectOk, 300, true)
    else (false, s.waitConnection - 1, false)
  let connected := maint.1
  let waitC := maint.2.1
  let attempted := maint.2.2
  match frameData with
  | none =>
      { state := { s with connected := connected, waitConnection := waitC },
        sent := [], mode := none, attempted := attempted, ack := confirmByte }
  | some f =>
      let sel := selectMode s f w h
      let fm := sel.mode
      let t : List Nat × Nat × Nat :=
        if fm = FM_NONE then
          ((socketSend connected (le16 fm)).1, s.forceFrameCount + 1, s.checker)
        else if fm = FM_FULL then
          let jb := jpeg (bytesOf f (w * h * 3)) w h
          let ds := jb.length % 65536
          ((socketSend connected (le16 fm)).1 ++ (socketSend connected (le16 ds)).1 ++
             (socketSend connected (jb.take ds)).1,
           0, s.checker)
        else if fm = FM_DIFF then
          let jb := jpeg (bytesOf sel.dbuf (8 * 8 * 3 * sel.numSq)) 8 (8 * sel.numSq)
          let ds := jb.length % 65536
          ((socketSend connected (le16 fm)).1 ++ (socketSend connected (le16 ds)).1 ++
             (socketSend connected (diffMapBytes sel.dmap)).1 ++
             (socketSend connected (jb.take ds)).1,
           s.forceFrameCount + 5, s.checker)
        else if fm = FM_CHECKER ∨ fm = FM_CHECKER_COMPL then
          let jb := jpeg (checkerBuild f w h s.checker) (w / 2) h
          let dataType := 3 + s.checker
          let ds := jb.length % 65536
          ((socketSend connected (le16 dataType)).1 ++ (socketSend connected (le16 ds)).1 ++
             (socketSend connected (jb.take ds)).1,
           s.forceFrameCount + 3, (s.checker + 1) % 2)
        else ([], s.forceFrameCount, s.checker)
      { state := { lastImage := sel.lastImage, diffMap := sel.dmap, diffBuf := sel.dbuf,
                   forceFrameCount := t.2.1, checker := t.2.2, lastFrameMode := fm,
                   connected := connected, waitConnection := waitC },
        sent := t.1, mode := some fm, attempted := attempted, ack := confirmByte }

/-- Initial persistent state: the static initializers of `processFrameData`
(zero counters, `FM_NONE` last mode, no connection, no previous frame). -/
def initPump : PumpState :=
  { lastImage := none, diffMap := fun _ => false, diffBuf := fun _ => 0,
    forceFrameCount := 0, checker := 0, lastFrameMode := FM_NONE,
    connected := false, waitConnection := 0 }

/-- Run a sequence of frame-supplying calls (connection attempts failing, no
acknowledgment bytes pending), collecting each call result. -/
def runPump (jpeg : List Nat → Nat → Nat → List Nat) (w h : Nat) :
    PumpState → List (Nat → Nat) → List PumpResult
  | _, [] => []
  | s, f :: fs =>
      let r := processFrameData jpeg s (some f) w h false 0
      r :: runPump jpeg w h r.state fs

/-- The modes selected along a run of frame-supplying calls. -/
def runModes (jpeg : List Nat → Nat → Nat → List Nat) (w h : Nat)
    (s : PumpState) (fs : List (Nat → Nat)) : List (Option Nat) :=
  (runPump jpeg w h s fs).map PumpResult.mode

-- ### Projection lemmas for the pump

theorem processFrameData_mode (jpeg : List Nat → Nat → Nat → List Nat)
    (s : PumpState) (f : Nat → Nat) (w h : Nat) (ok : Bool) (cb : Nat) :
    (processFrameData jpeg s (some f) w h ok cb).mode = some (selectMode s f w h).mode := rfl

theorem processFrameData_lastImage (jpeg : List Nat → Nat → Nat → List Nat)
    (s : PumpState) (f : Nat → Nat) (w h : Nat) (ok : Bool) (cb : Nat) :
    (processFrameData jpeg s (some f) w h ok cb).state.lastImage =
      (selectMode s f w h).lastImage := rfl

theorem processFrameData_lastFrameMode (jpeg : List Nat → Nat → Nat → List Nat)
    (s : PumpState) (f : Nat → Nat) (w h : Nat) (ok : Bool) (cb : Nat) :
    (processFrameData jpeg s (some f) w h ok cb).state.lastFrameMode =
      (selectMode s f w h).mode := rfl

theorem selectMode_none_eq (s : PumpState) (f : Nat → Nat) (w h : Nat)
    (hnone : s.lastImage = none) :
    selectMode s f w h =
      { mode := FM_FULL, numSq := 0, lastImage := some f,
        dmap := s.diffMap, dbuf := s.diffBuf } := by
  simp only [selectMode, hnone]

theorem selectMode_some_eq (s : PumpState) (f last : Nat → Nat) (w h : Nat)
    (hsome : s.lastImage = some last) :
    selectMode s f w h =
      if 100 < s.forceFrameCount then
        { mode := FM_FULL, numSq := 0, lastImage := some last,
          dmap := s.diffMap, dbuf := s.diffBuf }
      else if s.lastFrameMode = FM_CHECKER then
        { mode := FM_CHECKER_COMPL, numSq := 0, lastImage := some last,
          dmap := s.diffMap, dbuf := s.diffBuf }
      else
        { mode :=
            if 240 / 8 * (320 / 8) / 3 <
                (imageDiff ⟨last, s.diffMap, s.diffBuf, 0⟩ f w h).numSq then FM_CHECKER
            else if 0 < (imageDiff ⟨last, s.diffMap, s.diffBuf, 0⟩ f w h).numSq then FM_DIFF
            else FM_NONE,
          numSq := (imageDiff ⟨last, s.diffMap, s.diffBuf, 0⟩ f w h).numSq,
          lastImage := some (imageDiff ⟨last, s.diffMap, s.diffBuf, 0⟩ f w h).last,
          dmap := (imageDiff ⟨last, s.diffMap, s.diffBuf, 0⟩ f w h).dmap,
          dbuf := (imageDiff ⟨last, s.diffMap, s.diffBuf, 0⟩ f w h).dbuf } := by
  by_cases h1 : 100 < s.forceFrameCount
  · simp [selectMode, hsome, h1, FM_FULL, FM_CHECKER_COMPL, FM_NONE]
  · by_cases h2 : s.lastFrameMode = FM_CHECKER
    · simp [selectMode, hsome, h1, h2, FM_FULL, FM_CHECKER_COMPL, FM_NONE]
    · simp [selectMode, hsome, h1, h2, FM_FULL, FM_CHECKER_COMPL, FM_NONE]

theorem processFrameData_counters (jpeg : List Nat → Nat → Nat → List Nat)
    (s : PumpState) (f : Nat → Nat) (w h : Nat) (ok : Bool) (cb : Nat) :
    (processFrameData jpeg s (some f) w h ok cb).state.forceFrameCount =
      (if (selectMode s f w h).mode = FM_NONE then s.forceFrameCount + 1
       else if (selectMode s f w h).mode = FM_FULL then 0
       else if (selectMode s f w h).mode = FM_DIFF then s.forceFrameCount + 5
       else if (selectMode s f w h).mode = FM_CHECKER ∨
           (selectMode s f w h).mode = FM_CHECKER_COMPL then s.forceFrameCount + 3
       else s.forceFrameCount) ∧
    (processFrameData jpeg s (some f) w h ok cb).state.checker =
      (if (selectMode s f w h).mode = FM_NONE then s.checker
       else if (selectMode s f w h).mode = FM_FULL then s.checker
       else if (selectMode s f w h).mode = FM_DIFF then s.checker
       else if (selectMode s f w h).mode = FM_CHECKER ∨
           (selectMode s f w h).mode = FM_CHECKER_COMPL then (s.checker + 1) % 2
       else s.checker) := by
  simp only [processFrameData]
  split_ifs <;> simp_all

-- ### Claim C1: mode selection order

/-- Claim C1: for every frame-supplying call after the first (previous-frame
buffer established), the mode is selected in this order: `FM_FULL` when
`forceFrameCount > 100`; else `FM_CHECKER_COMPL` when the last mode was
`FM_CHECKER`; else the differencer runs and the mode is `FM_CHECKER` when the
dirty count exceeds `totalBlocks / 3 = 400`, `FM_DIFF` when it is positive and
at most 400, and `FM_NONE` when it is zero.  The first call ever (no
previous-frame buffer) always selects `FM_FULL` and establishes the
previous-frame buffer as a copy of the current frame. -/
theorem C1_mode_selection (jpeg : List Nat → Nat → Nat → List Nat)
    (s : PumpState) (f last : Nat → Nat) (w h : Nat) (ok : Bool) (cb : Nat) :
    (s.lastImage = some last →
      (processFrameData jpeg s (some f) w h ok cb).mode =
        some (if 100 < s.forceFrameCount then FM_FULL
              else if s.lastFrameMode = FM_CHECKER then FM_CHECKER_COMPL
              else if 400 < (imageDiff ⟨last, s.diffMap, s.diffBuf, 0⟩ f w h).numSq then
                FM_CHECKER
              else if 0 < (imageDiff ⟨last, s.diffMap, s.diffBuf, 0⟩ f w h).numSq then
                FM_DIFF
              else FM_NONE)) ∧
    (s.lastImage = none →
      (processFrameData jpeg s (some f) w h ok cb).mode = some FM_FULL ∧
      (processFrameData jpeg s (some f) w h ok cb).state.lastImage = some f) := by
  constructor
  · intro hsome
    rw [processFrameData_mode, selectMode_some_eq s f last w h hsome]
    have h400 : 240 / 8 * (320 / 8) / 3 = 400 := by norm_num
    split_ifs <;> simp_all
  · intro hnone
    rw [processFrameData_mode, processFrameData_lastImage,
      selectMode_none_eq s f w h hnone]
    exact ⟨rfl, rfl⟩

/-- Witness for C1: a concrete second call whose differencer finds one dirty
block selects `FM_DIFF`. -/
theorem C1_mode_selection_witness :
    (processFrameData (fun _ _ _ => [])
      ⟨some (fun _ => 0), fun _ => false, fun _ => 0, 0, 0, FM_NONE, false, 0⟩
      (some (fun x => if x = 0 then 255 else 0)) 8 8 false 0).mode = some FM_DIFF := by
  have h := (C1_mode_selection (fun _ _ _ => [])
      ⟨some (fun _ => 0), fun _ => false, fun _ => 0, 0, 0, FM_NONE, false, 0⟩
      (fun x => if x = 0 then 255 else 0) (fun _ => 0) 8 8 false 0).1 rfl
  rw [h]
  decide

-- ### Claim C5: counter updates after each transmission

/-- Claim C5: after every transmission the counters are updated as follows:
`forceFrameCount` resets to 0 after `FM_FULL`, increments by 1 after
`FM_NONE`, by 5 after `FM_DIFF`, and by 3 after each checker phase; the
checker phase toggles between 0 and 1 after each checker transmission and is
changed by no other mode. -/
theorem C5_counter_updates (jpeg : List Nat → Nat → Nat → List Nat)
    (s : PumpState) (f : Nat → Nat) (w h : Nat) (ok : Bool) (cb : Nat)
    (hc : s.checker ≤ 1) :
    ((processFrameData jpeg s (some f) w h ok cb).mode = some FM_FULL →
      (processFrameData jpeg s (some f) w h ok cb).state.forceFrameCount = 0 ∧
      (processFrameData jpeg s (some f) w h ok cb).state.checker = s.checker) ∧
    ((processFrameData jpeg s (some f) w h ok cb).mode = some FM_NONE →
      (processFrameData jpeg s (some f) w h ok cb).state.forceFrameCount =
        s.forceFrameCount + 1 ∧
      (processFrameData jpeg s (some f) w h ok cb).state.checker = s.checker) ∧
    ((processFrameData jpeg s (some f) w h ok cb).mode = some FM_DIFF →
      (processFrameData jpeg s (some f) w h ok cb).state.forceFrameCount =
        s.forceFrameCount + 5 ∧
      (processFrameData jpeg s (some f) w h ok cb).state.checker = s.checker) ∧
    ((processFrameData jpeg s (some f) w h ok cb).mode = some FM_CHECKER ∨
        (processFrameData jpeg s (some f) w h ok cb).mode = some FM_CHECKER_COMPL →
      (processFrameData jpeg s (some f) w h ok cb).state.forceFrameCount =
        s.forceFrameCount + 3 ∧
      (processFrameData jpeg s (some f) w h ok cb).state.checker = 1 - s.checker ∧
      (processFrameData jpeg s (some f) w h ok cb).state.checker ≠ s.checker ∧
      (processFrameData jpeg s (some f) w h ok cb).state.checker ≤ 1) := by
  have hm := processFrameData_mode jpeg s f w h ok cb
  have hcnt := processFrameData_counters jpeg s f w h ok cb
  refine ⟨?_, ?_, ?_, ?_⟩
  · intro hfull
    rw [hm] at hfull
    have : (selectMode s f w h).mode = FM_FULL := by injection hfull
    rw [hcnt.1, hcnt.2, this]
    simp [FM_FULL, FM_NONE]
  · intro hnone
    rw [hm] at hnone
    have : (selectMode s f w h).mode = FM_NONE := by injection hnone
    rw [hcnt.1, hcnt.2, this]
    simp
  · intro hdiff
    rw [hm] at hdiff
    have : (selectMode s f w h).mode = FM_DIFF := by injection hdiff
    rw [hcnt.1, hcnt.2, this]
    simp [FM_DIFF, FM_NONE, FM_FULL]
  · intro hch
    have hmode : (selectMode s f w h).mode = FM_CHECKER ∨
        (selectMode s f w h).mode = FM_CHECKER_COMPL := by
      rcases hch with hch | hch <;> rw [hm] at hch
      · exact Or.inl (by injection hch)
      · exact Or.inr (by injection hch)
    have hne : (selectMode s f w h).mode ≠ FM_NONE ∧
        (selectMode s f w h).mode ≠ FM_FULL ∧
        (selectMode s f w h).mode ≠ FM_DIFF := by
      rcases hmode with hmode | hmode <;> rw [hmode] <;>
        simp [FM_CHECKER, FM_CHECKER_COMPL, FM_NONE, FM_FULL, FM_DIFF]
    rw [hcnt.1, hcnt.2]
    rw [if_neg hne.1, if_neg hne.2.1, if_neg hne.2.2, if_pos hmode,
      if_neg hne.1, if_neg hne.2.1, if_neg hne.2.2, if_pos hmode]
    interval_cases hcv : s.checker <;> simp

/-- Witness for C5: after the concrete `FM_DIFF` call of the C1 witness, the
force-frame counter advances by 5 and the checker phase is untouched. -/
theorem C5_counter_updates_witness :
    (processFrameData (fun _ _ _ => [])
      ⟨some (fun _ => 0), fun _ => false, fun _ => 0, 0, 0, FM_NONE, false, 0⟩
      (some (fun x => if x = 0 then 255 else 0)) 8 8 false 0).state.forceFrameCount =
        0 + 5 ∧
    (processFrameData (fun _ _ _ => [])
      ⟨some (fun _ => 0), fun _ => false, fun _ => 0, 0, 0, FM_NONE, false, 0⟩
      (some (fun x => if x = 0 then 255 else 0)) 8 8 false 0).state.checker = 0 := by
  have h := (C5_counter_updates (fun _ _ _ => [])
      ⟨some (fun _ => 0), fun _ => false, fun _ => 0, 0, 0, FM_NONE, false, 0⟩
      (fun x => if x = 0 then 255 else 0) 8 8 false 0 (by decide)).2.2.1 (by decide)
  exact h

-- ### Identical frames give a clean differencer run

theorem bdiff_self (a : Nat) : bdiff a a = 0 := by simp [bdiff]

theorem blockSum_self (F : Nat → Nat) (base rs : Nat) : blockSum F F base rs = 0 := by
  apply List.sum_eq_zero
  intro x hx
  rw [List.mem_map] at hx
  obtain ⟨p, _, rfl⟩ := hx
  simp [pixDiff, bdiff_self]

theorem squareDiff_self (F : Nat → Nat) (base rs : Nat) : squareDiff F F base rs = 0 := by
  rw [squareDiff_eq_blockSum_test, blockSum_self]
  simp

theorem diffFold_self (F : Nat → Nat) (w : Nat) :
    ∀ (l : List Nat) (dm : Nat → Bool) (db : Nat → Nat) (n : Nat),
      ∃ dm2, l.foldl (diffStep F w) ⟨F, dm, db, n⟩ = ⟨F, dm2, db, n⟩ := by
  intro l
  induction l with
  | nil => intro dm db n; exact ⟨dm, rfl⟩
  | cons b rest ih =>
    intro dm db n
    have hstep : diffStep F w ⟨F, dm, db, n⟩ b =
        ⟨F, fun b2 => if b2 = b then false else dm b2, db, n⟩ := by
      simp [diffStep, squareDiff_self]
    rw [List.foldl_cons, hstep]
    exact ih _ db n

theorem imageDiff_self (F : Nat → Nat) (dm : Nat → Bool) (db : Nat → Nat) (w h : Nat) :
    ∃ dm2, imageDiff ⟨F, dm, db, 0⟩ F w h = ⟨F, dm2, db, 0⟩ :=
  diffFold_self F w _ dm db 0

-- ### Mode exhaustiveness and counter growth

theorem selectMode_mode_cases (s : PumpState) (f : Nat → Nat) (w h : Nat) :
    (selectMode s f w h).mode = FM_NONE ∨ (selectMode s f w h).mode = FM_FULL ∨
    (selectMode s f w h).mode = FM_DIFF ∨ (selectMode s f w h).mode = FM_CHECKER ∨
    (selectMode s f w h).mode = FM_CHECKER_COMPL := by
  cases hsi : s.lastImage with
  | none => rw [selectMode_none_eq s f w h hsi]; simp
  | some last =>
    rw [selectMode_some_eq s f last w h hsi]
    split_ifs <;> simp

theorem processFrameData_ffc_growth (jpeg : List Nat → Nat → Nat → List Nat)
    (s : PumpState) (f : Nat → Nat) (w h : Nat) (ok : Bool) (cb : Nat)
    (hne : (processFrameData jpeg s (some f) w h ok cb).mode ≠ some FM_FULL) :
    s.forceFrameCount + 1 ≤
      (processFrameData jpeg s (some f) w h ok cb).state.forceFrameCount := by
  have hm := processFrameData_mode jpeg s f w h ok cb
  have hc := (processFrameData_counters jpeg s f w h ok cb).1
  rcases selectMode_mode_cases s f w h with h0 | h0 | h0 | h0 | h0 <;>
    rw [hc, h0] <;> simp_all [FM_NONE, FM_FULL, FM_DIFF, FM_CHECKER, FM_CHECKER_COMPL]

theorem processFrameData_not_full_ffc_le (jpeg : List Nat → Nat → Nat → List Nat)
    (s : PumpState) (f F : Nat → Nat) (w h : Nat) (ok : Bool) (cb : Nat)
    (hsi : s.lastImage = some F)
    (hne : (processFrameData jpeg s (some f) w h ok cb).mode ≠ some FM_FULL) :
    s.forceFrameCount ≤ 100 := by
  by_contra hgt
  apply hne
  rw [processFrameData_mode, selectMode_some_eq s f F w h hsi,
    if_pos (Nat.lt_of_not_le (fun hle => hgt (by omega)))]

theorem processFrameData_keeps_some (jpeg : List Nat → Nat → Nat → List Nat)
    (s : PumpState) (f F : Nat → Nat) (w h : Nat) (ok : Bool) (cb : Nat)
    (hsi : s.lastImage = some F) :
    ∃ F2, (processFrameData jpeg s (some f) w h ok cb).state.lastImage = some F2 := by
  rw [processFrameData_lastImage, selectMode_some_eq s f F w h hsi]
  split_ifs <;> exact ⟨_, rfl⟩

theorem runModes_no_full_bound (jpeg : List Nat → Nat → Nat → List Nat) (w h : Nat) :
    ∀ (fs : List (Nat → Nat)) (s : PumpState) (F : Nat → Nat),
      s.lastImage = some F →
      some FM_FULL ∉ runModes jpeg w h s fs →
      fs = [] ∨ s.forceFrameCount + fs.length ≤ 101 := by
  intro fs
  induction fs with
  | nil => intro s F _ _; exact Or.inl rfl
  | cons f rest ih =>
    intro s F hsi hno
    right
    rw [runModes, runPump, List.map_cons, List.mem_cons] at hno
    push_neg at hno
    have hnf : (processFrameData jpeg s (some f) w h false 0).mode ≠ some FM_FULL :=
      fun hh => hno.1 hh.symm
    have hle : s.forceFrameCount ≤ 100 :=
      processFrameData_not_full_ffc_le jpeg s f F w h false 0 hsi hnf
    have hgrow := processFrameData_ffc_growth jpeg s f w h false 0 hnf
    obtain ⟨F2, hF2⟩ := processFrameData_keeps_some jpeg s f F w h false 0 hsi
    have hrest := ih (processFrameData jpeg s (some f) w h false 0).state F2 hF2
      (by rw [runModes]; exact hno.2)
    rcases hrest with hrest | hrest
    · subst hrest; simp; omega
    · simp only [List.length_cons]; omega

-- ### Claim C2 (corrected): a keyframe occurs in every window of 102 calls

/-- Claim C2, amended: for every input sequence of frame-supplying calls, an
`FM_FULL` transmission appears at least once in every window of 102 consecutive
calls (the forced-refresh counter permits at most 101 consecutive non-FULL
calls: after a FULL resets the counter, 101 no-change frames pass before the
counter exceeds 100 and the 102nd call is forced to FULL). -/
theorem C2_full_within_102 (jpeg : List Nat → Nat → Nat → List Nat) (w h : Nat)
    (s : PumpState) (fs : List (Nat → Nat)) (hlen : fs.length = 102) :
    some FM_FULL ∈ runModes jpeg w h s fs := by
  by_contra hno
  cases hsi : s.lastImage with
  | none =>
    cases fs with
    | nil => simp at hlen
    | cons f rest =>
      apply hno
      rw [runModes, runPump, List.map_cons]
      have hfull : (processFrameData jpeg s (some f) w h false 0).mode = some FM_FULL := by
        rw [processFrameData_mode, selectMode_none_eq s f w h hsi]
      rw [hfull]
      exact List.mem_cons_self _ _
  | some F =>
    rcases runModes_no_full_bound jpeg w h fs s F hsi hno with hnil | hbound
    · rw [hnil] at hlen; simp at hlen
    · omega

/-- Witness for C2 (amended): a concrete 102-call run from the initial state
contains an `FM_FULL` transmission. -/
theorem C2_full_within_102_witness :
    some FM_FULL ∈ runModes (fun _ _ _ => []) 240 320 initPump
      (List.replicate 102 (fun _ => 0)) :=
  C2_full_within_102 (fun _ _ _ => []) 240 320 initPump
    (List.replicate 102 (fun _ => 0)) (by simp)

theorem runModes_none_run (jpeg : List Nat → Nat → Nat → List Nat) (w h : Nat) :
    ∀ (n : Nat) (s : PumpState) (F : Nat → Nat),
      s.lastImage = some F → s.lastFrameMode ≠ FM_CHECKER →
      s.forceFrameCount + n ≤ 101 →
      runModes jpeg w h s (List.replicate n F) = List.replicate n (some FM_NONE) := by
  intro n
  induction n with
  | zero => intro s F _ _ _; simp [runModes, runPump]
  | succ n ih =>
    intro s F hsi hlm hle
    obtain ⟨dm2, hd⟩ := imageDiff_self F s.diffMap s.diffBuf w h
    have hnotgt : ¬ 100 < s.forceFrameCount := by omega
    have hsel : selectMode s F w h =
        { mode := FM_NONE, numSq := 0, lastImage := some F,
          dmap := dm2, dbuf := s.diffBuf } := by
      rw [selectMode_some_eq s F F w h hsi, if_neg hnotgt, if_neg hlm, hd]
      simp
    have hmode : (processFrameData jpeg s (some F) w h false 0).mode = some FM_NONE := by
      rw [processFrameData_mode, hsel]
    have hli : (processFrameData jpeg s (some F) w h false 0).state.lastImage = some F := by
      rw [processFrameData_lastImage, hsel]
    have hlfm : (processFrameData jpeg s (some F) w h false 0).state.lastFrameMode =
        FM_NONE := by
      rw [processFrameData_lastFrameMode, hsel]
    have hffc : (processFrameData jpeg s (some F) w h false 0).state.forceFrameCount =
        s.forceFrameCount + 1 := by
      rw [(processFrameData_counters jpeg s F w h false 0).1, hsel]
      simp
    rw [List.replicate_succ, runModes, runPump, List.map_cons, hmode,
      List.replicate_succ]
    congr 1
    apply ih _ F hli
    · rw [hlfm]; simp [FM_NONE, FM_CHECKER]
    · omega

/-- Counterexample to claim C2 as stated: starting from the initial state, the
first call of a run of 102 identical frames is `FM_FULL`, and the following
101 consecutive frame-supplying calls (a window of 101 calls) are all
`FM_NONE` — no `FM_FULL` transmission occurs in that 101-call window. -/
theorem C2_counterexample :
    ((runModes (fun _ _ _ => []) 240 320 initPump
        (List.replicate 102 (fun _ => 0))).drop 1).length = 101 ∧
    some FM_FULL ∉ (runModes (fun _ _ _ => []) 240 320 initPump
        (List.replicate 102 (fun _ => 0))).drop 1 := by
  have hsel : selectMode initPump (fun _ => 0) 240 320 =
      { mode := FM_FULL, numSq := 0, lastImage := some (fun _ => 0),
        dmap := initPump.diffMap, dbuf := initPump.diffBuf } :=
    selectMode_none_eq initPump (fun _ => 0) 240 320 rfl
  have hli : (processFrameData (fun _ _ _ => []) initPump (some (fun _ => 0))
      240 320 false 0).state.lastImage = some (fun _ => 0) := by
    rw [processFrameData_lastImage, hsel]
  have hlfm : (processFrameData (fun _ _ _ => []) initPump (some (fun _ => 0))
      240 320 false 0).state.lastFrameMode = FM_FULL := by
    rw [processFrameData_lastFrameMode, hsel]
  have hffc : (processFrameData (fun _ _ _ => []) initPump (some (fun _ => 0))
      240 320 false 0).state.forceFrameCount = 0 := by
    rw [(processFrameData_counters (fun _ _ _ => []) initPump (fun _ => 0)
      240 320 false 0).1, hsel]
    simp [FM_FULL, FM_NONE]
  have hdrop : (runModes (fun _ _ _ => []) 240 320 initPump
      (List.replicate 102 (fun _ => 0))).drop 1 =
      runModes (fun _ _ _ => []) 240 320
        (processFrameData (fun _ _ _ => []) initPump (some (fun _ => 0))
          240 320 false 0).state (List.replicate 101 (fun _ => 0)) := by
    rw [show (List.replicate 102 (fun _ => (0 : Nat))) =
        (fun _ => (0 : Nat)) :: List.replicate 101 (fun _ => 0) from rfl,
      runModes, runPump, List.map_cons, List.drop_succ_cons, List.drop_zero]
    rfl
  have hrun : runModes (fun _ _ _ => []) 240 320
      (processFrameData (fun _ _ _ => []) initPump (some (fun _ => 0))
        240 320 false 0).state (List.replicate 101 (fun _ => 0)) =
      List.replicate 101 (some FM_NONE) := by
    apply runModes_none_run _ 240 320 101 _ _ hli
    · rw [hlfm]; simp [FM_FULL, FM_CHECKER]
    · omega
  rw [hdrop, hrun]
  constructor
  · simp
  · simp [List.mem_replicate, FM_FULL, FM_NONE]

-- ### Claim C8: transport drops frames when disconnected, retries on schedule

theorem processFrameData_disconnected_sent (jpeg : List Nat → Nat → Nat → List Nat)
    (s : PumpState) (f : Nat → Nat) (w h : Nat) (cb : Nat)
    (hdis : s.connected = false) :
    (processFrameData jpeg s (some f) w h false cb).sent = [] := by
  simp only [processFrameData, hdis]
  split_ifs <;> simp_all [socketSend]

theorem processFrameData_wait_decrement (jpeg : List Nat → Nat → Nat → List Nat)
    (s : PumpState) (f : Nat → Nat) (w h : Nat) (cb : Nat)
    (hdis : s.connected = false) (hw : s.waitConnection ≠ 0) :
    (processFrameData jpeg s (some f) w h false cb).attempted = false ∧
    (processFrameData jpeg s (some f) w h false cb).state.connected = false ∧
    (processFrameData jpeg s (some f) w h false cb).state.waitConnection =
      s.waitConnection - 1 := by
  simp only [processFrameData, hdis]
  simp [hw]

theorem processFrameData_attempt (jpeg : List Nat → Nat → Nat → List Nat)
    (s : PumpState) (f : Nat → Nat) (w h : Nat) (cb : Nat)
    (hdis : s.connected = false) (hw : s.waitConnection = 0) :
    (processFrameData jpeg s (some f) w h false cb).attempted = true ∧
    (processFrameData jpeg s (some f) w h false cb).state.connected = false ∧
    (processFrameData jpeg s (some f) w h false cb).state.waitConnection = 300 := by
  simp only [processFrameData, hdis]
  simp [hw]

theorem runPump_attempts_schedule (jpeg : List Nat → Nat → Nat → List Nat) (w h : Nat) :
    ∀ (k : Nat) (fs : List (Nat → Nat)) (g : Nat → Nat) (s : PumpState),
      s.connected = false → s.waitConnection = k → fs.length = k →
      (runPump jpeg w h s (fs ++ [g])).map PumpResult.attempted =
        List.replicate k false ++ [true] := by
  intro k
  induction k with
  | zero =>
    intro fs g s hdis hw hlen
    rw [List.length_eq_zero] at hlen
    subst hlen
    have h := processFrameData_attempt jpeg s g w h 0 hdis hw
    simp [runPump, h.1]
  | succ k ih =>
    intro fs g s hdis hw hlen
    cases fs with
    | nil => simp at hlen
    | cons f fs2 =>
      simp only [List.length_cons] at hlen
      have hd := processFrameData_wait_decrement jpeg s f w h 0 hdis (by omega)
      rw [List.cons_append, runPump, List.map_cons, hd.1]
      rw [List.replicate_succ, List.cons_append]
      congr 1
      exact ih fs2 g _ hd.2.1 (by omega) (by omega)

/-- Claim C8: while the socket is not connected, a send is a no-op that
silently drops the bytes (nothing written, 0 returned, the whole call writes
nothing to the transport); only the connection itself is retried, on the fixed
wait-counter schedule: after arming the counter at 300, the next 300 calls
make no connection attempt and the 301st call attempts again. -/
theorem C8_transport_drop_and_retry (jpeg : List Nat → Nat → Nat → List Nat)
    (w h : Nat) (s : PumpState) (f g : Nat → Nat) (fs : List (Nat → Nat))
    (data : List Nat) (hdis : s.connected = false) (hwait : s.waitConnection = 300)
    (hlen : fs.length = 300) :
    socketSend false data = ([], 0) ∧
    (processFrameData jpeg s (some f) w h false 0).sent = [] ∧
    (runPump jpeg w h s (fs ++ [g])).map PumpResult.attempted =
      List.replicate 300 false ++ [true] := by
  refine ⟨rfl, processFrameData_disconnected_sent jpeg s f w h 0 hdis, ?_⟩
  exact runPump_attempts_schedule jpeg w h 300 fs g s hdis hwait hlen

/-- Witness for C8 at a concrete disconnected state with the wait counter
freshly armed at 300 and 301 concrete calls. -/
theorem C8_transport_drop_and_retry_witness :
    socketSend false [1, 2, 3] = ([], 0) ∧
    (processFrameData (fun _ _ _ => [])
      ⟨none, fun _ => false, fun _ => 0, 0, 0, FM_NONE, false, 300⟩
      (some (fun _ => 0)) 240 320 false 0).sent = [] ∧
    (runPump (fun _ _ _ => []) 240 320
      ⟨none, fun _ => false, fun _ => 0, 0, 0, FM_NONE, false, 300⟩
      (List.replicate 300 (fun _ => 0) ++ [fun _ => 0])).map PumpResult.attempted =
      List.replicate 300 false ++ [true] :=
  C8_transport_drop_and_retry (fun _ _ _ => []) 240 320
    ⟨none, fun _ => false, fun _ => 0, 0, 0, FM_NONE, false, 300⟩
    (fun _ => 0) (fun _ => 0) (List.replicate 300 (fun _ => 0)) [1, 2, 3]
    rfl rfl (List.length_replicate 300 _)

-- ### Claim C6: checkerboard sampling characterization

/-- Sampled bytes as the spec describes them: with phase `c`, the pixel at row
`j`, column `i` is sampled exactly when `c + j + i` is even, rows scanned
top-down and left-to-right. This is the spec-side description to be compared
with `checkerBuild`. -/
def sampledBytes (frame : Nat → Nat) (w h c : Nat) : List Nat :=
  (List.range h).flatMap (fun j => (List.range w).flatMap (fun i =>
    if (c + j + i) % 2 = 0 then pix3 frame w j i else []))

theorem bNot_mod_two (x : Nat) : bNot (x % 2) = (x + 1) % 2 := by
  unfold bNot
  split_ifs <;> omega

theorem rowStep_fold (frame : Nat → Nat) (w j : Nat) :
    ∀ (n : Nat) (out : List Nat) (sk : Nat), sk ≤ 1 →
      (List.range n).foldl (rowStep frame w j) (out, sk) =
        (out ++ (List.range n).flatMap
            (fun i => if (sk + i) % 2 = 0 then pix3 frame w j i else []),
         (sk + n) % 2) := by
  intro n
  induction n with
  | zero =>
    intro out sk hsk
    simp [Nat.mod_eq_of_lt (show sk < 2 by omega)]
  | succ n ih =>
    intro out sk hsk
    rw [List.range_succ, List.foldl_append, ih out sk hsk, List.foldl_cons,
      List.foldl_nil, List.flatMap_append]
    by_cases hc : (sk + n) % 2 = 0
    · simp [rowStep, hc, bNot, List.append_assoc]
      omega
    · simp [rowStep, hc, bNot]
      omega

theorem colStep_fold (frame : Nat → Nat) (w : Nat) :
    ∀ (m : Nat) (out : List Nat) (sk : Nat), sk ≤ 1 →
      (List.range m).foldl (colStep frame w) (out, sk) =
        (out ++ (List.range m).flatMap (fun j => (List.range w).flatMap
            (fun i => if ((sk + j * (w + 1)) % 2 + i) % 2 = 0 then pix3 frame w j i else [])),
         (sk + m * (w + 1)) % 2) := by
  intro m
  induction m with
  | zero =>
    intro out sk hsk
    simp [Nat.mod_eq_of_lt (show sk < 2 by omega)]
  | succ m ih =>
    intro out sk hsk
    rw [List.range_succ, List.foldl_append, ih out sk hsk, List.foldl_cons,
      List.foldl_nil, List.flatMap_append]
    unfold colStep
    rw [rowStep_fold frame w m w _ ((sk + m * (w + 1)) % 2) (by omega)]
    simp only [List.flatMap_cons, List.flatMap_nil, List.append_nil, List.append_assoc]
    rw [Prod.mk.injEq]
    refine ⟨rfl, ?_⟩
    rw [bNot_mod_two]
    have hmul : (m + 1) * (w + 1) = m * (w + 1) + w + 1 := by ring
    rw [hmul]
    omega

theorem range_parity_count :
    ∀ (m a : Nat), ((List.range (2 * m)).filter (fun i => (a + i) % 2 = 0)).length = m := by
  intro m
  induction m with
  | zero => intro a; simp
  | succ m ih =>
    intro a
    rw [show 2 * (m + 1) = 2 * m + 1 + 1 by omega, List.range_succ, List.range_succ,
      List.filter_append, List.filter_append]
    by_cases hp : (a + 2 * m) % 2 = 0
    · have hp2 : ¬ (a + (2 * m + 1)) % 2 = 0 := by omega
      simp [hp, hp2, ih a]
    · have hp2 : (a + (2 * m + 1)) % 2 = 0 := by omega
      simp [hp, hp2, ih a]
      omega

/-- Claim C6: with sampling phase `c`, the interlaced payload samples exactly
the pixels at row `j`, column `i` with `c + j + i` even (in row-major order);
the phase-0 and phase-1 sampled positions are disjoint and together cover
every pixel position; and each row contributes exactly `240 / 2 = 120`
sampled pixels. -/
theorem C6_checkerboard (frame : Nat → Nat) (c : Nat) (hc : c ≤ 1) :
    checkerBuild frame 240 320 c = sampledBytes frame 240 320 c ∧
    (∀ j i : Nat, (0 + j + i) % 2 = 0 ↔ ¬ (1 + j + i) % 2 = 0) ∧
    (∀ j : Nat, ((List.range 240).filter (fun i => (c + j + i) % 2 = 0)).length = 120) := by
  refine ⟨?_, ?_, ?_⟩
  · have h1 : checkerBuild frame 240 320 c =
        (List.range 320).flatMap (fun j => (List.range 240).flatMap
          (fun i => if ((c + j * (240 + 1)) % 2 + i) % 2 = 0 then
            pix3 frame 240 j i else [])) := by
      unfold checkerBuild
      rw [colStep_fold frame 240 320 [] c hc, List.nil_append]
    have hfn : (fun j => (List.range 240).flatMap
          (fun i => if ((c + j * (240 + 1)) % 2 + i) % 2 = 0 then
            pix3 frame 240 j i else [])) =
        (fun j => (List.range 240).flatMap
          (fun i => if (c + j + i) % 2 = 0 then pix3 frame 240 j i else [])) := by
      funext j
      have hfn2 : (fun i => if ((c + j * (240 + 1)) % 2 + i) % 2 = 0 then
            pix3 frame 240 j i else []) =
          (fun i => if (c + j + i) % 2 = 0 then pix3 frame 240 j i else []) := by
        funext i
        have hcd : ((c + j * (240 + 1)) % 2 + i) % 2 = (c + j + i) % 2 := by omega
        rw [hcd]
      rw [hfn2]
    rw [h1, hfn]
    unfold sampledBytes
    rfl
  · intro j i
    omega
  · intro j
    rw [show (240 : Nat) = 2 * 120 by norm_num]
    exact range_parity_count 120 (c + j)

/-- Witness for C6 at phase 0 with a concrete frame. -/
theorem C6_checkerboard_witness :
    checkerBuild (fun _ => 0) 240 320 0 = sampledBytes (fun _ => 0) 240 320 0 :=
  (C6_checkerboard (fun _ => 0) 0 (by decide)).1

-- ### Transmission byte streams for the DIFF and checker branches

theorem diffMapBytes_length (m : Nat → Bool) : (diffMapBytes m).length = 150 := by
  simp [diffMapBytes]

theorem processFrameData_sent_diff (jpeg : List Nat → Nat → Nat → List Nat)
    (s : PumpState) (f : Nat → Nat) (w h : Nat) (ok : Bool) (cb : Nat)
    (hconn : s.connected = true)
    (hsm : (selectMode s f w h).mode = FM_DIFF) :
    (processFrameData jpeg s (some f) w h ok cb).sent =
      le16 FM_DIFF ++
      le16 ((jpeg (bytesOf (selectMode s f w h).dbuf (8 * 8 * 3 * (selectMode s f w h).numSq))
          8 (8 * (selectMode s f w h).numSq)).length % 65536) ++
      diffMapBytes (selectMode s f w h).dmap ++
      (jpeg (bytesOf (selectMode s f w h).dbuf (8 * 8 * 3 * (selectMode s f w h).numSq))
          8 (8 * (selectMode s f w h).numSq)).take
        ((jpeg (bytesOf (selectMode s f w h).dbuf (8 * 8 * 3 * (selectMode s f w h).numSq))
          8 (8 * (selectMode s f w h).numSq)).length % 65536) := by
  simp only [processFrameData, hconn, hsm]
  simp [socketSend, FM_DIFF, FM_NONE, FM_FULL, List.append_assoc]

theorem processFrameData_sent_checker (jpeg : List Nat → Nat → Nat → List Nat)
    (s : PumpState) (f : Nat → Nat) (w h : Nat) (ok : Bool) (cb : Nat)
    (hconn : s.connected = true)
    (hsm : (selectMode s f w h).mode = FM_CHECKER ∨
      (selectMode s f w h).mode = FM_CHECKER_COMPL) :
    (processFrameData jpeg s (some f) w h ok cb).sent =
      le16 (3 + s.checker) ++
      le16 ((jpeg (checkerBuild f w h s.checker) (w / 2) h).length % 65536) ++
      (jpeg (checkerBuild f w h s.checker) (w / 2) h).take
        ((jpeg (checkerBuild f w h s.checker) (w / 2) h).length % 65536) := by
  rcases hsm with hsm | hsm <;>
  · simp only [processFrameData, hconn, hsm]
    simp [socketSend, FM_CHECKER, FM_CHECKER_COMPL, FM_NONE, FM_FULL, FM_DIFF,
      List.append_assoc]

theorem selectMode_diff_numSq_pos (s : PumpState) (f : Nat → Nat) (w h : Nat)
    (hd : (selectMode s f w h).mode = FM_DIFF) : 0 < (selectMode s f w h).numSq := by
  cases hsi : s.lastImage with
  | none =>
    rw [selectMode_none_eq s f w h hsi] at hd
    simp [FM_FULL, FM_DIFF] at hd
  | some last =>
    rw [selectMode_some_eq s f last w h hsi] at hd ⊢
    split_ifs at hd ⊢ with h1 h2 <;>
      simp_all [FM_FULL, FM_DIFF, FM_CHECKER, FM_CHECKER_COMPL, FM_NONE]

-- ### Claim C7: DIFF transmission wire layout

/-- Claim C7: for every DIFF transmission (over a connected socket, with the
compressed payload fitting the 16-bit length field), the bytes written are, in
order: the 2-byte mode code 2, the 2-byte payload length, the fixed 150-byte
dirty bitmap, then the compressed packed-diff bytes; the packed diff buffer is
compressed as a synthetic image of width 8 and height `8 * dirtyCount`; and
this encoder path runs only when the dirty count is positive. -/
theorem C7_diff_wire_layout (jpeg : List Nat → Nat → Nat → List Nat)
    (s : PumpState) (f : Nat → Nat) (w h : Nat) (ok : Bool) (cb : Nat)
    (hconn : s.connected = true)
    (hmode : (processFrameData jpeg s (some f) w h ok cb).mode = some FM_DIFF)
    (hfit : (jpeg (bytesOf (selectMode s f w h).dbuf
        (8 * 8 * 3 * (selectMode s f w h).numSq))
        8 (8 * (selectMode s f w h).numSq)).length < 65536) :
    (processFrameData jpeg s (some f) w h ok cb).sent =
      le16 2 ++
      le16 ((jpeg (bytesOf (selectMode s f w h).dbuf
          (8 * 8 * 3 * (selectMode s f w h).numSq))
          8 (8 * (selectMode s f w h).numSq)).length) ++
      diffMapBytes (selectMode s f w h).dmap ++
      jpeg (bytesOf (selectMode s f w h).dbuf (8 * 8 * 3 * (selectMode s f w h).numSq))
        8 (8 * (selectMode s f w h).numSq) ∧
    (diffMapBytes (selectMode s f w h).dmap).length = 150 ∧
    0 < (selectMode s f w h).numSq := by
  have hsm : (selectMode s f w h).mode = FM_DIFF := by
    rw [processFrameData_mode] at hmode
    injection hmode
  refine ⟨?_, diffMapBytes_length _, selectMode_diff_numSq_pos s f w h hsm⟩
  rw [processFrameData_sent_diff jpeg s f w h ok cb hconn hsm,
    Nat.mod_eq_of_lt hfit, List.take_length]
  rfl

/-- Witness for C7: a concrete connected DIFF call has a positive dirty count. -/
theorem C7_diff_wire_layout_witness :
    0 < (selectMode
      ⟨some (fun _ => 0), fun _ => false, fun _ => 0, 0, 0, FM_NONE, true, 0⟩
      (fun x => if x = 0 then 255 else 0) 8 8).numSq :=
  (C7_diff_wire_layout (fun _ _ _ => [9])
    ⟨some (fun _ => 0), fun _ => false, fun _ => 0, 0, 0, FM_NONE, true, 0⟩
    (fun x => if x = 0 then 255 else 0) 8 8 false 0 rfl (by decide) (by decide)).2.2

-- ### Claim C9: checker wire code comes from the phase counter

/-- Claim C9: every checker-mode transmission writes the 2-byte wire code
`3 + checker` taken from the phase counter at send time, not the internally
selected mode value; consequently, when the phase counter is 1 (as after a
forced FULL interrupted a checker pair), a call that internally selects
`FM_CHECKER` transmits wire code 4 (`FM_CHECKER_COMPL`) while the internal
last-mode state records `FM_CHECKER`. -/
theorem C9_checker_wire_code (jpeg : List Nat → Nat → Nat → List Nat)
    (s : PumpState) (f last : Nat → Nat) (w h : Nat) (ok : Bool) (cb : Nat)
    (hsome : s.lastImage = some last) (hconn : s.connected = true) :
    ((processFrameData jpeg s (some f) w h ok cb).mode = some FM_CHECKER ∨
        (processFrameData jpeg s (some f) w h ok cb).mode = some FM_CHECKER_COMPL →
      ((processFrameData jpeg s (some f) w h ok cb).sent.take 2 =
        le16 (3 + s.checker))) ∧
    (s.checker = 1 → ¬ 100 < s.forceFrameCount → s.lastFrameMode ≠ FM_CHECKER →
      400 < (imageDiff ⟨last, s.diffMap, s.diffBuf, 0⟩ f w h).numSq →
      (processFrameData jpeg s (some f) w h ok cb).mode = some FM_CHECKER ∧
      (processFrameData jpeg s (some f) w h ok cb).sent.take 2 = le16 4 ∧
      (processFrameData jpeg s (some f) w h ok cb).state.lastFrameMode = FM_CHECKER) := by
  have hprefix : (selectMode s f w h).mode = FM_CHECKER ∨
      (selectMode s f w h).mode = FM_CHECKER_COMPL →
      (processFrameData jpeg s (some f) w h ok cb).sent.take 2 = le16 (3 + s.checker) := by
    intro hsm
    rw [processFrameData_sent_checker jpeg s f w h ok cb hconn hsm]
    rfl
  constructor
  · intro hm
    apply hprefix
    rw [processFrameData_mode] at hm
    rcases hm with hm | hm
    · exact Or.inl (by injection hm)
    · exact Or.inr (by injection hm)
  · intro hck hffc hlfm hnum
    have hsm : (selectMode s f w h).mode = FM_CHECKER := by
      rw [selectMode_some_eq s f last w h hsome, if_neg hffc, if_neg hlfm]
      simp only []
      rw [if_pos (by norm_num; omega)]
    refine ⟨?_, ?_, ?_⟩
    · rw [processFrameData_mode, hsm]
    · have := hprefix (Or.inl hsm)
      rw [hck] at this
      exact this
    · rw [processFrameData_lastFrameMode, hsm]

/-- Witness for C9: with phase counter 1 and last mode `FM_CHECKER`, the
complementary interlace call is transmitted with wire code `3 + 1 = 4`. -/
theorem C9_checker_wire_code_witness :
    (processFrameData (fun _ _ _ => [])
      ⟨some (fun _ => 0), fun _ => false, fun _ => 0, 0, 1, FM_CHECKER, true, 0⟩
      (some (fun _ => 0)) 8 8 false 0).sent.take 2 = le16 (3 + 1) :=
  (C9_checker_wire_code (fun _ _ _ => [])
    ⟨some (fun _ => 0), fun _ => false, fun _ => 0, 0, 1, FM_CHECKER, true, 0⟩
    (fun _ => 0) (fun _ => 0) 8 8 false 0 rfl rfl).1 (by decide)

-- ### Address arithmetic for the fixed 240x320 block grid

/-- Absolute byte address of offset `t` inside block `b` of a `w`-wide frame. -/
def blockAddr (w b t : Nat) : Nat := addr (blockBase w b) (w * 3) t

theorem blockAddr_inj (b t b2 t2 : Nat) (hb : b < 1200) (ht : t < 192)
    (hb2 : b2 < 1200) (ht2 : t2 < 192)
    (he : blockAddr 240 b t = blockAddr 240 b2 t2) : b = b2 ∧ t = t2 := by
  unfold blockAddr addr blockBase at he
  omega

theorem inSquare_blockAddr (m b t : Nat) (hm : m < 1200) (hb : b < 1200) (ht : t < 192) :
    inSquare (blockBase 240 m) (240 * 3) (blockAddr 240 b t) = true ↔ b = m := by
  unfold inSquare
  rw [List.any_eq_true]
  constructor
  · rintro ⟨t2, ht2, heq⟩
    rw [List.mem_range] at ht2
    rw [beq_iff_eq] at heq
    exact (blockAddr_inj b t m t2 hb ht hm ht2 heq).1
  · rintro rfl
    refine ⟨t, ?_, ?_⟩
    · rw [List.mem_range]; exact ht
    · rw [beq_iff_eq]; rfl

theorem pixOff_add_lt (p c : Nat) (hp : p < 64) (hc : c < 3) : pixOff p + c < 192 := by
  unfold pixOff
  omega

theorem pixDiff_congr (p1 p1' p2 : Nat → Nat) (base rs : Nat)
    (hagree : ∀ t, t < 192 → p1 (addr base rs t) = p1' (addr base rs t))
    (p : Nat) (hp : p < 64) :
    pixDiff p1 p2 base rs p = pixDiff p1' p2 base rs p := by
  unfold pixDiff
  rw [hagree (pixOff p) (by have := pixOff_add_lt p 0 hp (by omega); omega),
    hagree (pixOff p + 1) (pixOff_add_lt p 1 hp (by omega)),
    hagree (pixOff p + 2) (pixOff_add_lt p 2 hp (by omega))]

theorem squareDiffGo_congr (p1 p1' p2 : Nat → Nat) (base rs : Nat)
    (hagree : ∀ t, t < 192 → p1 (addr base rs t) = p1' (addr base rs t)) :
    ∀ (l : List Nat), (∀ p ∈ l, p < 64) → ∀ d,
      squareDiffGo p1 p2 base rs l d = squareDiffGo p1' p2 base rs l d := by
  intro l
  induction l with
  | nil => intro _ d; rfl
  | cons p rest ih =>
    intro hmem d
    have hp : p < 64 := hmem p (List.mem_cons_self p rest)
    unfold squareDiffGo
    rw [pixDiff_congr p1 p1' p2 base rs hagree p hp]
    simp only []
    split_ifs with hd
    · rfl
    · exact ih (fun q hq => hmem q (List.mem_cons_of_mem p hq)) _

theorem squareDiff_congr (p1 p1' p2 : Nat → Nat) (base rs : Nat)
    (hagree : ∀ t, t < 192 → p1 (addr base rs t) = p1' (addr base rs t)) :
    squareDiff p1 p2 base rs = squareDiff p1' p2 base rs := by
  unfold squareDiff
  exact squareDiffGo_congr p1 p1' p2 base rs hagree (List.range 64)
    (fun p hp => List.mem_range.mp hp) 0

-- ### The imageDiff fold invariant on the fixed 240x320 grid

/-- The differencer state after scanning the first `m` blocks of a 240-wide
frame, starting from buffers `last0`, `dm0`, `db0` and a zero dirty count. -/
def diffFold (last0 cur : Nat → Nat) (dm0 : Nat → Bool) (db0 : Nat → Nat) (m : Nat) :
    DiffState :=
  (List.range m).foldl (diffStep cur 240) ⟨last0, dm0, db0, 0⟩

/-- The dirty blocks among the first `m` blocks, in row-major block order. -/
def dirtyPrefix (last0 cur : Nat → Nat) (m : Nat) : List Nat :=
  (List.range m).filter (blockDirty last0 cur 240)

theorem diffFold_succ (last0 cur : Nat → Nat) (dm0 : Nat → Bool) (db0 : Nat → Nat)
    (m : Nat) :
    diffFold last0 cur dm0 db0 (m + 1) =
      diffStep cur 240 (diffFold last0 cur dm0 db0 m) m := by
  rw [diffFold, diffFold, List.range_succ, List.foldl_append, List.foldl_cons,
    List.foldl_nil]

theorem dirtyPrefix_succ (last0 cur : Nat → Nat) (m : Nat) :
    dirtyPrefix last0 cur (m + 1) =
      dirtyPrefix last0 cur m ++ if blockDirty last0 cur 240 m then [m] else [] := by
  rw [dirtyPrefix, dirtyPrefix, List.range_succ, List.filter_append]
  by_cases hD : blockDirty last0 cur 240 m <;> simp [List.filter, hD]

theorem diffFold_invariant (last0 cur : Nat → Nat) (dm0 : Nat → Bool) (db0 : Nat → Nat) :
    ∀ m, m ≤ 1200 →
      (diffFold last0 cur dm0 db0 m).numSq = (dirtyPrefix last0 cur m).length ∧
      (∀ b, (diffFold last0 cur dm0 db0 m).dmap b =
        if b < m then blockDirty last0 cur 240 b else dm0 b) ∧
      (∀ b t, b < 1200 → t < 192 →
        (diffFold last0 cur dm0 db0 m).last (blockAddr 240 b t) =
          if b < m ∧ blockDirty last0 cur 240 b = true then cur (blockAddr 240 b t)
          else last0 (blockAddr 240 b t)) ∧
      (∀ x, 192 * (dirtyPrefix last0 cur m).length ≤ x →
        (diffFold last0 cur dm0 db0 m).dbuf x = db0 x) ∧
      (∀ k t, ∀ hk : k < (dirtyPrefix last0 cur m).length, t < 192 →
        (diffFold last0 cur dm0 db0 m).dbuf (192 * k + t) =
          cur (blockAddr 240 ((dirtyPrefix last0 cur m)[k]) t)) := by
  intro m
  induction m with
  | zero =>
    intro _
    refine ⟨rfl, ?_, ?_, ?_, ?_⟩
    · intro b; simp [diffFold]
    · intro b t _ _; simp [diffFold]
    · intro x _; rfl
    · intro k t hk _
      simp [dirtyPrefix] at hk
  | succ m ih =>
    intro hm1
    have hm : m ≤ 1200 := by omega
    have hmlt : m < 1200 := by omega
    obtain ⟨ihn, ihm, ihl, ihdb, ihdbf⟩ := ih hm
    have hagree : ∀ t, t < 192 →
        (diffFold last0 cur dm0 db0 m).last (addr (blockBase 240 m) (240 * 3) t) =
          last0 (addr (blockBase 240 m) (240 * 3) t) := by
      intro t ht
      have hv := ihl m t hmlt ht
      rw [show addr (blockBase 240 m) (240 * 3) t = blockAddr 240 m t from rfl, hv,
        if_neg (by rintro ⟨hlt, _⟩; omega)]
    have hsd : squareDiff (diffFold last0 cur dm0 db0 m).last cur
        (blockBase 240 m) (240 * 3) =
        squareDiff last0 cur (blockBase 240 m) (240 * 3) :=
      squareDiff_congr _ _ _ _ _ hagree
    by_cases hD : blockDirty last0 cur 240 m
    · -- dirty block m
      have hsd1 : squareDiff last0 cur (blockBase 240 m) (240 * 3) = 1 := by
        unfold blockDirty at hD
        exact beq_iff_eq.mp hD
      have hstep : diffFold last0 cur dm0 db0 (m + 1) =
          { last := copySquare (diffFold last0 cur dm0 db0 m).last cur
              (blockBase 240 m) (240 * 3),
            dmap := fun b2 => if b2 = m then true
              else (diffFold last0 cur dm0 db0 m).dmap b2,
            dbuf := putSquare (diffFold last0 cur dm0 db0 m).dbuf
              (8 * 8 * 3 * (diffFold last0 cur dm0 db0 m).numSq) cur
              (blockBase 240 m) (240 * 3),
            numSq := (diffFold last0 cur dm0 db0 m).numSq + 1 } := by
        rw [diffFold_succ]
        unfold diffStep
        simp only []
        rw [if_pos (by rw [hsd, hsd1])]
      have hdp : dirtyPrefix last0 cur (m + 1) = dirtyPrefix last0 cur m ++ [m] := by
        rw [dirtyPrefix_succ, if_pos hD]
      have hlen : (dirtyPrefix last0 cur (m + 1)).length =
          (dirtyPrefix last0 cur m).length + 1 := by
        rw [hdp]; simp
      refine ⟨?_, ?_, ?_, ?_, ?_⟩
      · rw [hstep, hlen]
        simp [ihn]
      · intro b
        rw [hstep]
        simp only []
        by_cases hbm : b = m
        · subst hbm
          rw [if_pos rfl, if_pos (by omega), hD]
        · rw [if_neg hbm, ihm b]
          by_cases hblt : b < m
          · rw [if_pos hblt, if_pos (by omega)]
          · rw [if_neg hblt, if_neg (by omega)]
      · intro b t hb ht
        rw [hstep]
        simp only []
        unfold copySquare
        by_cases hbm : b = m
        · subst hbm
          rw [if_pos ((inSquare_blockAddr b b t hmlt hb ht).mpr rfl),
            if_pos ⟨by omega, hD⟩]
        · rw [if_neg (by
              intro hin
              exact hbm ((inSquare_blockAddr m b t hmlt hb ht).mp hin)),
            ihl b t hb ht]
          by_cases hbd : b < m ∧ blockDirty last0 cur 240 b = true
          · rw [if_pos hbd, if_pos ⟨by omega, hbd.2⟩]
          · rw [if_neg hbd, if_neg (by
              rintro ⟨hlt, hdb⟩
              exact hbd ⟨by omega, hdb⟩)]
      · intro x hx
        rw [hstep]
        simp only []
        unfold putSquare
        rw [hlen] at hx
        rw [if_neg (by
          rintro ⟨h1, h2⟩
          rw [ihn] at h1 h2
          omega)]
        exact ihdb x (by rw [ihn] at *; omega)
      · intro k t hk ht
        have hk2 : k < (dirtyPrefix last0 cur m).length + 1 := by
          rw [← hlen]
          exact hk
        rw [hstep]
        simp only []
        unfold putSquare
        rw [List.getElem_of_eq hdp]
        by_cases hkm : k < (dirtyPrefix last0 cur m).length
        · rw [if_neg (by
            rintro ⟨h1, _⟩
            rw [ihn] at h1
            omega)]
          rw [ihdbf k t hkm ht]
          simp [List.getElem_append_left hkm]
        · have hkeq : k = (dirtyPrefix last0 cur m).length := by omega
          subst hkeq
          rw [if_pos (by rw [ihn]; omega)]
          rw [ihn]
          have harg : 192 * (dirtyPrefix last0 cur m).length + t -
              8 * 8 * 3 * (dirtyPrefix last0 cur m).length = t := by omega
          rw [harg]
          simp [blockAddr]
    · -- clean block m
      have hsd0 : squareDiff last0 cur (blockBase 240 m) (240 * 3) ≠ 1 := by
        intro h1
        apply hD
        unfold blockDirty
        rw [h1]
        rfl
      have hstep : diffFold last0 cur dm0 db0 (m + 1) =
          { last := (diffFold last0 cur dm0 db0 m).last,
            dmap := fun b2 => if b2 = m then false
              else (diffFold last0 cur dm0 db0 m).dmap b2,
            dbuf := (diffFold last0 cur dm0 db0 m).dbuf,
            numSq := (diffFold last0 cur dm0 db0 m).numSq } := by
        rw [diffFold_succ]
        unfold diffStep
        simp only []
        rw [if_neg (by rw [hsd]; exact hsd0)]
      have hdp : dirtyPrefix last0 cur (m + 1) = dirtyPrefix last0 cur m := by
        rw [dirtyPrefix_succ, if_neg hD]
        simp
      refine ⟨?_, ?_, ?_, ?_, ?_⟩
      · rw [hstep, hdp]
        exact ihn
      · intro b
        rw [hstep]
        simp only []
        by_cases hbm : b = m
        · subst hbm
          rw [if_pos rfl, if_pos (by omega)]
          simp only [Bool.not_eq_true] at hD
          rw [hD]
        · rw [if_neg hbm, ihm b]
          by_cases hblt : b < m
          · rw [if_pos hblt, if_pos (by omega)]
          · rw [if_neg hblt, if_neg (by omega)]
      · intro b t hb ht
        rw [hstep]
        simp only []
        rw [ihl b t hb ht]
        by_cases hbd : b < m ∧ blockDirty last0 cur 240 b = true
        · rw [if_pos hbd, if_pos ⟨by omega, hbd.2⟩]
        · rw [if_neg hbd, if_neg (by
            rintro ⟨hlt, hdb⟩
            apply hbd
            refine ⟨?_, hdb⟩
            rcases Nat.lt_succ_iff_lt_or_eq.mp hlt with h | h
            · exact h
            · subst h
              exact absurd hdb hD)]
      · intro x hx
        rw [hstep]
        simp only []
        rw [hdp] at hx
        exact ihdb x hx
      · intro k t hk ht
        have hk2 : k < (dirtyPrefix last0 cur m).length := by
          rw [← hdp]
          exact hk
        rw [hstep]
        simp only []
        rw [List.getElem_of_eq hdp]
        exact ihdbf k t hk2 ht

theorem imageDiff_eq_diffFold (last0 cur : Nat → Nat) (dm0 : Nat → Bool)
    (db0 : Nat → Nat) :
    imageDiff ⟨last0, dm0, db0, 0⟩ cur 240 320 = diffFold last0 cur dm0 db0 1200 := by
  unfold imageDiff diffFold
  rw [show (320 : Nat) / 8 * (240 / 8) = 1200 by norm_num]

theorem dirtyBlocks_eq_dirtyPrefix (last0 cur : Nat → Nat) :
    dirtyBlocks last0 cur 240 320 = dirtyPrefix last0 cur 1200 := by
  unfold dirtyBlocks dirtyPrefix
  rw [show (320 : Nat) / 8 * (240 / 8) = 1200 by norm_num]

-- ### Claim C4: effects of a differencer run

/-- Claim C4: for every differencer run on the fixed 240x320 grid, the dirty
bitmap gets every block bit rewritten (set exactly for dirty blocks); dirty
blocks are copied from the current frame into the previous-frame buffer in
place while clean blocks are left untouched there; the dirty count is the
number of dirty blocks; and the dirty blocks' pixels are packed contiguously
into the diff buffer in row-major bitmap order (the k-th dirty block occupies
bytes 192k to 192k+191). -/
theorem C4_imageDiff_effects (last0 cur : Nat → Nat) (dm0 : Nat → Bool)
    (db0 : Nat → Nat) :
    (∀ b, b < 1200 →
      (imageDiff ⟨last0, dm0, db0, 0⟩ cur 240 320).dmap b = blockDirty last0 cur 240 b) ∧
    (∀ b t, b < 1200 → t < 192 →
      (imageDiff ⟨last0, dm0, db0, 0⟩ cur 240 320).last (blockAddr 240 b t) =
        if blockDirty last0 cur 240 b = true then cur (blockAddr 240 b t)
        else last0 (blockAddr 240 b t)) ∧
    (imageDiff ⟨last0, dm0, db0, 0⟩ cur 240 320).numSq =
      (dirtyBlocks last0 cur 240 320).length ∧
    (∀ k t, ∀ hk : k < (dirtyBlocks last0 cur 240 320).length, t < 192 →
      (imageDiff ⟨last0, dm0, db0, 0⟩ cur 240 320).dbuf (192 * k + t) =
        cur (blockAddr 240 ((dirtyBlocks last0 cur 240 320)[k]) t)) := by
  have hvar := diffFold_invariant last0 cur dm0 db0 1200 (le_refl 1200)
  obtain ⟨hn, hmp, hl, _, hdbf⟩ := hvar
  refine ⟨?_, ?_, ?_, ?_⟩
  · intro b hb
    rw [imageDiff_eq_diffFold, hmp b, if_pos hb]
  · intro b t hb ht
    rw [imageDiff_eq_diffFold, hl b t hb ht]
    by_cases hd : blockDirty last0 cur 240 b = true
    · rw [if_pos ⟨hb, hd⟩, if_pos hd]
    · rw [if_neg (by rintro ⟨_, h2⟩; exact hd h2), if_neg hd]
  · rw [imageDiff_eq_diffFold, dirtyBlocks_eq_dirtyPrefix, hn]
  · intro k t hk ht
    have hk2 : k < (dirtyPrefix last0 cur 1200).length := by
      rw [← dirtyBlocks_eq_dirtyPrefix]
      exact hk
    rw [imageDiff_eq_diffFold, List.getElem_of_eq (dirtyBlocks_eq_dirtyPrefix last0 cur)]
    exact hdbf k t hk2 ht

/-- Witness for C4: the rewritten bitmap bit of block 5 on a concrete run. -/
theorem C4_imageDiff_effects_witness :
    (imageDiff ⟨fun _ => 0, fun _ => true, fun _ => 0, 0⟩ (fun _ => 0) 240 320).dmap 5 =
      blockDirty (fun _ => 0) (fun _ => 0) 240 5 :=
  (C4_imageDiff_effects (fun _ => 0) (fun _ => 0) (fun _ => true) (fun _ => 0)).1
    5 (by decide)

-- ### Claim C10: previous-frame buffer mutation discipline

/-- Claim C10: with the previous-frame buffer established, every forced FULL
and every CHECKER_COMPL call leaves the previous-frame buffer entirely
unchanged (the differencer does not run, so the next differencer run still
compares against the pre-FULL reference); in every other case the buffer is
the differencer output, whose block bytes are the current frame on dirty
blocks and the old reference on clean blocks. -/
theorem C10_previous_buffer (jpeg : List Nat → Nat → Nat → List Nat)
    (s : PumpState) (f last : Nat → Nat) (ok : Bool) (cb : Nat)
    (hsome : s.lastImage = some last) :
    ((processFrameData jpeg s (some f) 240 320 ok cb).mode = some FM_FULL ∨
        (processFrameData jpeg s (some f) 240 320 ok cb).mode = some FM_CHECKER_COMPL →
      (processFrameData jpeg s (some f) 240 320 ok cb).state.lastImage = some last) ∧
    (∀ last2,
      (processFrameData jpeg s (some f) 240 320 ok cb).state.lastImage = some last2 →
      ∀ b t, b < 1200 → t < 192 →
        last2 (blockAddr 240 b t) =
          if (processFrameData jpeg s (some f) 240 320 ok cb).mode = some FM_FULL ∨
              (processFrameData jpeg s (some f) 240 320 ok cb).mode =
                some FM_CHECKER_COMPL then
            last (blockAddr 240 b t)
          else if blockDirty last f 240 b = true then f (blockAddr 240 b t)
          else last (blockAddr 240 b t)) := by
  have hmode := processFrameData_mode jpeg s f 240 320 ok cb
  have hli := processFrameData_lastImage jpeg s f 240 320 ok cb
  have hsel := selectMode_some_eq s f last 240 320 hsome
  by_cases h1 : 100 < s.forceFrameCount
  · rw [if_pos h1] at hsel
    constructor
    · intro _
      rw [hli, hsel]
    · intro last2 hlast2 b t hb ht
      rw [hli, hsel] at hlast2
      have hl2 : last = last2 := Option.some_inj.mp hlast2
      rw [← hl2, if_pos (by rw [hmode, hsel]; exact Or.inl rfl)]
  · rw [if_neg h1] at hsel
    by_cases h2 : s.lastFrameMode = FM_CHECKER
    · rw [if_pos h2] at hsel
      constructor
      · intro _
        rw [hli, hsel]
      · intro last2 hlast2 b t hb ht
        rw [hli, hsel] at hlast2
        have hl2 : last = last2 := Option.some_inj.mp hlast2
        rw [← hl2, if_pos (by rw [hmode, hsel]; exact Or.inr rfl)]
    · rw [if_neg h2] at hsel
      have hnotor : ¬ ((processFrameData jpeg s (some f) 240 320 ok cb).mode =
          some FM_FULL ∨
          (processFrameData jpeg s (some f) 240 320 ok cb).mode =
            some FM_CHECKER_COMPL) := by
        rw [hmode, hsel]
        simp only []
        rintro (hx | hx) <;> injection hx with hx <;> revert hx <;>
          split_ifs <;> simp [FM_CHECKER, FM_DIFF, FM_NONE, FM_FULL, FM_CHECKER_COMPL]
      constructor
      · intro hor
        exact absurd hor hnotor
      · intro last2 hlast2 b t hb ht
        rw [hli, hsel] at hlast2
        have hl2 : (imageDiff ⟨last, s.diffMap, s.diffBuf, 0⟩ f 240 320).last = last2 :=
          Option.some_inj.mp hlast2
        rw [if_neg hnotor, ← hl2]
        obtain ⟨_, _, hl, _, _⟩ :=
          diffFold_invariant last f s.diffMap s.diffBuf 1200 (le_refl 1200)
        rw [imageDiff_eq_diffFold, hl b t hb ht]
        by_cases hd : blockDirty last f 240 b = true
        · rw [if_pos ⟨hb, hd⟩, if_pos hd]
        · rw [if_neg (by rintro ⟨_, hx⟩; exact hd hx), if_neg hd]

/-- Witness for C10: a forced FULL call (counter above 100) keeps the stored
previous-frame buffer. -/
theorem C10_previous_buffer_witness :
    (processFrameData (fun _ _ _ => [])
      ⟨some (fun _ => 0), fun _ => false, fun _ => 0, 101, 0, FM_NONE, false, 1⟩
      (some (fun x => x)) 240 320 false 0).state.lastImage = some (fun _ => 0) :=
  (C10_previous_buffer (fun _ _ _ => [])
    ⟨some (fun _ => 0), fun _ => false, fun _ => 0, 101, 0, FM_NONE, false, 1⟩
    (fun x => x) (fun _ => 0) false 0 rfl).1 (Or.inl (by decide))
